import Mathlib

/-!
Shallow embedding of the Template Composition & Status Propagation Engine of
openwisp-controller, as implemented in
`src/openwisp_controller/config/base/template.py` (AbstractTemplate: `save`,
`_update_related_config_status`, `clean`, `get_context`, `__get_clone_name`) and
`src/openwisp2/config/models.py` (`TemplatesVpnMixin.clean_templates_org`).

JSON field values (`default_values`, `config`) are modelled by an explicit JSON
value type; Django querysets are modelled by lists preserving iteration order;
Django model equality (`config in changing_status`) compares primary keys, so
membership tests compare ids.
-/

set_option autoImplicit false

namespace Owisp

/-- JSON values, as deserialized into Python objects by the JSONField. -/
inductive JsonVal where
  | null
  | bool (b : Bool)
  | num (n : Int)
  | str (s : String)
  | arr (elems : List JsonVal)
  | obj (entries : List (String × JsonVal))

mutual

/-- Structural equality of JSON values (Python `==` on deserialized values). -/
def JsonVal.beq : JsonVal → JsonVal → Bool
  | .null, .null => true
  | .bool a, .bool b => a == b
  | .num a, .num b => a == b
  | .str a, .str b => a == b
  | .arr a, .arr b => JsonVal.beqList a b
  | .obj a, .obj b => JsonVal.beqEntries a b
  | _, _ => false

def JsonVal.beqList : List JsonVal → List JsonVal → Bool
  | [], [] => true
  | a :: as, b :: bs => JsonVal.beq a b && JsonVal.beqList as bs
  | _, _ => false

def JsonVal.beqEntries : List (String × JsonVal) → List (String × JsonVal) → Bool
  | [], [] => true
  | (k, v) :: as, (l, w) :: bs => k == l && JsonVal.beq v w && JsonVal.beqEntries as bs
  | _, _ => false

end

mutual

theorem JsonVal.beq_refl : ∀ (a : JsonVal), JsonVal.beq a a = true
  | .null => rfl
  | .bool b => by simp [JsonVal.beq]
  | .num n => by simp [JsonVal.beq]
  | .str s => by simp [JsonVal.beq]
  | .arr l => by simpa [JsonVal.beq] using JsonVal.beqList_refl l
  | .obj l => by simpa [JsonVal.beq] using JsonVal.beqEntries_refl l

theorem JsonVal.beqList_refl : ∀ (l : List JsonVal), JsonVal.beqList l l = true
  | [] => rfl
  | a :: as => by simp [JsonVal.beqList, JsonVal.beq_refl a, JsonVal.beqList_refl as]

theorem JsonVal.beqEntries_refl : ∀ (l : List (String × JsonVal)), JsonVal.beqEntries l l = true
  | [] => rfl
  | (k, v) :: as => by
      simp [JsonVal.beqEntries, JsonVal.beq_refl v, JsonVal.beqEntries_refl as]

end

mutual

theorem JsonVal.eq_of_beq : ∀ (a b : JsonVal), JsonVal.beq a b = true → a = b
  | .null, b, h => by cases b <;> simp_all [JsonVal.beq]
  | .bool _, b, h => by cases b <;> simp_all [JsonVal.beq]
  | .num _, b, h => by cases b <;> simp_all [JsonVal.beq]
  | .str _, b, h => by cases b <;> simp_all [JsonVal.beq]
  | .arr a, .arr b, h => by
      simp only [JsonVal.beq] at h
      exact congrArg JsonVal.arr (JsonVal.eqList_of_beqList a b h)
  | .arr _, .null, h => by simp [JsonVal.beq] at h
  | .arr _, .bool _, h => by simp [JsonVal.beq] at h
  | .arr _, .num _, h => by simp [JsonVal.beq] at h
  | .arr _, .str _, h => by simp [JsonVal.beq] at h
  | .arr _, .obj _, h => by simp [JsonVal.beq] at h
  | .obj a, .obj b, h => by
      simp only [JsonVal.beq] at h
      exact congrArg JsonVal.obj (JsonVal.eqEntries_of_beqEntries a b h)
  | .obj _, .null, h => by simp [JsonVal.beq] at h
  | .obj _, .bool _, h => by simp [JsonVal.beq] at h
  | .obj _, .num _, h => by simp [JsonVal.beq] at h
  | .obj _, .str _, h => by simp [JsonVal.beq] at h
  | .obj _, .arr _, h => by simp [JsonVal.beq] at h

theorem JsonVal.eqList_of_beqList :
    ∀ (a b : List JsonVal), JsonVal.beqList a b = true → a = b
  | [], [], _ => rfl
  | a :: as, b :: bs, h => by
      simp only [JsonVal.beqList, Bool.and_eq_true] at h
      cases JsonVal.eq_of_beq a b h.1
      cases JsonVal.eqList_of_beqList as bs h.2
      rfl
  | [], _ :: _, h => by simp [JsonVal.beqList] at h
  | _ :: _, [], h => by simp [JsonVal.beqList] at h

theorem JsonVal.eqEntries_of_beqEntries :
    ∀ (a b : List (String × JsonVal)), JsonVal.beqEntries a b = true → a = b
  | [], [], _ => rfl
  | (k, v) :: as, (l, w) :: bs, h => by
      simp only [JsonVal.beqEntries, Bool.and_eq_true] at h
      obtain ⟨⟨hk, hv⟩, hrest⟩ := h
      cases (beq_iff_eq (a := k) (b := l)).mp hk
      cases JsonVal.eq_of_beq v w hv
      cases JsonVal.eqEntries_of_beqEntries as bs hrest
      rfl
  | [], _ :: _, h => by simp [JsonVal.beqEntries] at h
  | _ :: _, [], h => by simp [JsonVal.beqEntries] at h

end

theorem JsonVal.beq_iff (a b : JsonVal) : JsonVal.beq a b = true ↔ a = b :=
  ⟨JsonVal.eq_of_beq a b, fun h => h ▸ JsonVal.beq_refl a⟩

instance : DecidableEq JsonVal :=
  fun a b => decidable_of_iff (JsonVal.beq a b = true) (JsonVal.beq_iff a b)

/-- Python truthiness test (`if not value:`) on a JSON value:
`None`, `False`, `0`, `""`, `[]` and `{}` are falsy. -/
def JsonVal.pyFalsy : JsonVal → Bool
  | .null => true
  | .bool b => !b
  | .num n => n == 0
  | .str s => s.isEmpty
  | .arr l => l.isEmpty
  | .obj l => l.isEmpty

/-- `isinstance(value, dict)` on a JSON value. -/
def JsonVal.isObj : JsonVal → Bool
  | .obj _ => true
  | _ => false

/-- The entries of a JSON object (`[]` on non-objects, which the engine never
reads as mappings). -/
def JsonVal.objEntries : JsonVal → List (String × JsonVal)
  | .obj l => l
  | _ => []

/-- Python dict entries: insertion-ordered key/value pairs. -/
abbrev Entries := List (String × JsonVal)

/-- Lookup in a Python dict modelled as an ordered entry list. -/
def dictLookup (d : Entries) (k : String) : Option JsonVal :=
  (d.find? (fun p => p.1 == k)).map Prod.snd

/-- `old.update(new)` on Python dicts: keys of `new` overwrite values of
existing keys of `old` in place, fresh keys are appended in order. -/
def dictUpdate (old new : Entries) : Entries :=
  (old.map (fun p =>
      match dictLookup new p.1 with
      | some v => (p.1, v)
      | none => p))
    ++ new.filter (fun p => (dictLookup old p.1).isNone)

/-- The two values of the template `type` field (`TYPE_CHOICES`). -/
inductive TemplateType where
  | generic
  | vpn
deriving DecidableEq, Repr

/-- The slice of a Vpn record the template engine reads: its (possibly shared,
i.e. null) organization. -/
structure VpnRec where
  organization : Option String
deriving DecidableEq, Repr

/-- The fields of `AbstractTemplate` the engine reads and writes.
`config` and `default_values` are JSON fields; `vpn` is a nullable foreign
key; `organization` comes from `ShareableOrgMixin` (null = shared). -/
structure TemplateRec where
  name : String
  organization : Option String
  type : TemplateType
  backend : String
  config : JsonVal
  default_values : JsonVal
  vpn : Option VpnRec
  auto_cert : Bool
  default : Bool
  tags : List String
deriving DecidableEq

/-- Config status values (`modified`, `applied`, `error`). -/
inductive Status where
  | modified
  | applied
  | error
deriving DecidableEq, Repr

/-- A dependent config as seen by the cascade: its primary key and status.
Django model equality (`config in changing_status`) compares primary keys. -/
structure RelatedConfig where
  id : Nat
  status : Status
deriving DecidableEq, Repr

/-- The two notification kinds emitted by `_update_related_config_status`. -/
inductive Event where
  | contentChanged (id : Nat)
  | statusChanged (id : Nat)
deriving DecidableEq, Repr

/-- `AbstractTemplate._update_related_config_status`:
snapshot the dependent configs whose status differs from `modified`
(`changing_status`), bulk-set every dependent config's status to `modified`,
then for each dependent config emit a content-changed signal unconditionally
and a status-changed signal only if it is in the snapshot. -/
def updateRelatedConfigStatus (deps : List RelatedConfig) :
    List RelatedConfig × List Event :=
  let changing_status := deps.filter (fun c => c.status ≠ Status.modified)
  let deps' := deps.map (fun c => { c with status := Status.modified })
  let events := deps'.flatMap (fun c =>
    Event.contentChanged c.id ::
      (if changing_status.any (fun c0 => c0.id = c.id) then [Event.statusChanged c.id]
       else []))
  (deps', events)

/-- The attributes `AbstractTemplate.save` compares between the in-memory
instance and the persisted row. -/
def renderAffectingAttrs : List String := ["backend", "config"]

/-- `getattr(self, attr) != getattr(current, attr)` for one attribute name of
the comparison loop in `AbstractTemplate.save`. -/
def attrDiffers (self current : TemplateRec) : String → Bool
  | "backend" => self.backend != current.backend
  | "config" => !JsonVal.beq self.config current.config
  | _ => false

/-- `AbstractTemplate.save`: when the instance is not being added
(`not self._state.adding`), compare the render-affecting attributes against the
persisted row `current`; after persisting, run the cascade only if one of them
changed.  Returns the dependent configs' new states and the emitted events. -/
def templateSave (adding : Bool) (self current : TemplateRec)
    (deps : List RelatedConfig) : List RelatedConfig × List Event :=
  let update_related_config_status :=
    !adding && renderAffectingAttrs.any (attrDiffers self current)
  if update_related_config_status then updateRelatedConfigStatus deps
  else (deps, [])

/-- Modelled from the spec: `BaseConfig.get_context` (the `super().get_context()`
call in `AbstractTemplate.get_context`) is not under src/; per the spec the only
contributions to the evaluation context are template default values and the
config's local variables, so the base contribution of a template is empty. -/
def baseGetContext : Entries := []

/-- `AbstractTemplate.get_context`: start from `{}`, copy `default_values` when
it is truthy, then apply the base class contribution with `dict.update`. -/
def TemplateRec.get_context (t : TemplateRec) : Entries :=
  let context : Entries := []
  let context := if t.default_values.pyFalsy then context else t.default_values.objEntries
  dictUpdate context baseGetContext

/-- A device config as the context merger sees it: its ordered template list
and its local variables. -/
structure ConfigRec where
  templates : List TemplateRec
  context : Entries

/-- Modelled from the spec: the config-level context builder
(`buildContext(config)`, implemented by the config model class that is not
under src/) overlays each template's context in application order, first to
last, and finally the config's own local variables. -/
def buildContext (c : ConfigRec) : Entries :=
  dictUpdate (c.templates.foldl (fun acc t => dictUpdate acc t.get_context) []) c.context

/-- The failure modes of `AbstractTemplate.clean`.  `orgMismatch`,
`defaultValuesNotObject` and `vpnRequired` are `ValidationError`s;
`nullDereference` stands for the `AttributeError` Python would raise if
`self.vpn.auto_client` were evaluated with `self.vpn = None`. -/
inductive CleanError where
  | orgMismatch
  | defaultValuesNotObject
  | vpnRequired
  | nullDereference
deriving DecidableEq, Repr

/-- Modelled from the spec: `ShareableOrgMixin._validate_org_relation` (from
openwisp_users, not under src/) succeeds when no related entity is set, when
the related entity's organization is null (shared), or when it matches the
entity's organization; it fails when the related entity has a non-null
organization different from the entity's organization. -/
def validateOrgRelation (entityOrg : Option String)
    (relatedOrg : Option (Option String)) : Bool :=
  match relatedOrg with
  | none => true
  | some none => true
  | some (some o) => entityOrg == some o

/-- Lines 139-144 of `AbstractTemplate.clean`: a falsy `default_values` is
replaced by `{}` before the `isinstance(..., dict)` check, which rejects what
remains non-object. -/
def validateDefaultValues (raw : JsonVal) : Except CleanError JsonVal :=
  let v := if raw.pyFalsy then JsonVal.obj [] else raw
  if v.isObj then Except.ok v else Except.error CleanError.defaultValuesNotObject

/-- The result of a successful `AbstractTemplate.clean` run: the normalized
template, plus a ghost flag recording whether the VPN auto-provisioning branch
(`self.vpn.auto_client(auto_cert=self.auto_cert)`) was taken. -/
structure CleanOutcome where
  t : TemplateRec
  autoClientInvoked : Bool
deriving DecidableEq

/-- `AbstractTemplate.clean`, with the external `Vpn.auto_client` capability
passed in as `auto_client`:
* validate the organization relation of `vpn`;
* coerce falsy `default_values` to `{}` and reject non-dict values;
* require a vpn reference when `type == 'vpn'`, else clear `vpn`/`auto_cert`;
* when `type == 'vpn'` and `config` is falsy, fill `config` from
  `self.vpn.auto_client(auto_cert=self.auto_cert)`.
`super().clean()` (out of scope per the spec) contributes nothing. -/
def clean (auto_client : VpnRec → Bool → JsonVal) (t0 : TemplateRec) :
    Except CleanError CleanOutcome :=
  if !validateOrgRelation t0.organization (t0.vpn.map (fun v => v.organization)) then
    Except.error CleanError.orgMismatch
  else
    match validateDefaultValues t0.default_values with
    | Except.error e => Except.error e
    | Except.ok dv =>
      let t := { t0 with default_values := dv }
      if t.type = TemplateType.vpn ∧ t.vpn = none then
        Except.error CleanError.vpnRequired
      else
        let t := if t.type ≠ TemplateType.vpn then
            { t with vpn := none, auto_cert := false }
          else t
        if t.type = TemplateType.vpn ∧ t.config.pyFalsy then
          match t.vpn with
          | none => Except.error CleanError.nullDereference
          | some v =>
            Except.ok ⟨{ t with config := auto_client v t.auto_cert }, true⟩
        else Except.ok ⟨t, false⟩

/-- Whether a `clean` run invokes the VPN auto-provisioner: failing runs stop
before the auto-provisioning branch and never invoke it. -/
def cleanInvokes (auto_client : VpnRec → Bool → JsonVal) (t : TemplateRec) : Bool :=
  match clean auto_client t with
  | Except.ok r => r.autoClientInvoked
  | Except.error _ => false

/-- The fixed part of the `clean_templates_org` error message. -/
def orgMismatchMessage (names : String) : String :=
  "The following templates are owned by organizations which do not match " ++
    "the organization of this configuration: " ++ names

/-- `TemplatesVpnMixin.clean_templates_org` (src/openwisp2/config/models.py):
an empty proposed set is returned as is; otherwise the templates whose
organization is neither the config's organization nor null are collected, and
if any exist a `ValidationError` naming them (comma-joined, in order) is
raised; else the proposed set is returned unchanged. -/
def cleanTemplatesOrg (instanceOrg : Option String)
    (templates : List TemplateRec) : Except String (List TemplateRec) :=
  if templates.isEmpty then Except.ok templates
  else
    let invalids := ((templates.filter (fun t => t.organization ≠ instanceOrg)).filter
        (fun t => t.organization ≠ none)).map (fun t => t.name)
    if ¬templates.isEmpty ∧ ¬invalids.isEmpty then
      Except.error (orgMismatchMessage
        ((invalids.foldl (fun acc n => acc ++ ", " ++ n) "").drop 2))
    else Except.ok templates

/-- The decimal digit characters used by Python's `str(int)`. -/
def digitChar : Nat → Char
  | 0 => '0'
  | 1 => '1'
  | 2 => '2'
  | 3 => '3'
  | 4 => '4'
  | 5 => '5'
  | 6 => '6'
  | 7 => '7'
  | 8 => '8'
  | _ => '9'

/-- Digit accumulator for `natToDec`; `fuel` bounds the recursion depth and any
`fuel > n` is enough. -/
def natToDecAux : Nat → Nat → List Char → List Char
  | 0, _, acc => acc
  | fuel + 1, n, acc =>
    let acc' := digitChar (n % 10) :: acc
    if n < 10 then acc' else natToDecAux fuel (n / 10) acc'

/-- Decimal rendering of a natural number, as `str(index)` in
`'{} (Clone {})'.format(self.name, index)`. -/
def natToDec (n : Nat) : String :=
  ⟨natToDecAux (n + 1) n []⟩

/-- The value denoted by a list of decimal digit characters; a left inverse of
`natToDec` used to prove it injective. -/
def decVal (l : List Char) : Nat :=
  l.foldl (fun a c => 10 * a + (c.toNat - 48)) 0

/-- The loop of `AbstractTemplate.__get_clone_name`: while some template is
named `name`, rebuild `name` from the running `index` and increment it.  The
source loop is unbounded; `fuel` bounds this model, and the theorems show that
`corpus.length + 1` iterations always suffice. -/
def getCloneNameLoop (corpus : List String) (base : String) :
    Nat → Nat → String → String
  | 0, _, name => name
  | fuel + 1, index, name =>
    if (corpus.count name) ≠ 0 then
      getCloneNameLoop corpus base fuel (index + 1)
        (base ++ " (Clone " ++ natToDec index ++ ")")
    else name

/-- `AbstractTemplate.__get_clone_name`: start from `"{name} (Clone)"` with
`index = 2`; `corpus` is the full list of existing template names (the lookup
`self.__class__.objects.filter(name=name)` is not organization-scoped). -/
def getCloneName (corpus : List String) (base : String) : String :=
  getCloneNameLoop corpus base (corpus.length + 1) 2 (base ++ " (Clone)")

/-- The candidate-name sequence probed by `__get_clone_name`:
`"{base} (Clone)"`, then `"{base} (Clone 2)"`, `"{base} (Clone 3)"`, ... -/
def cloneCandidate (base : String) : Nat → String
  | 0 => base ++ " (Clone)"
  | i + 1 => base ++ " (Clone " ++ natToDec (i + 2) ++ ")"

/-- Recognizer for content-changed notifications. -/
def isContentChanged : Event → Bool
  | Event.contentChanged _ => true
  | Event.statusChanged _ => false

/-- The config id carried by a status-changed notification, if any. -/
def statusChangedId : Event → Option Nat
  | Event.statusChanged i => some i
  | Event.contentChanged _ => none

/-- Comma-joined rendering of a list of names, stated the way the spec words
it: the names in order, separated by `", "`.  The theorems compare the
message built by `cleanTemplatesOrg` (an accumulating format loop followed by
`names[2:]`) against this direct description. -/
def commaJoin : List String → String
  | [] => ""
  | [n] => n
  | n :: rest => n ++ ", " ++ commaJoin rest

/-- Demo VPN owned by organization `org-a`. -/
def vpnDemo : VpnRec := ⟨some "org-a"⟩

/-- Demo external auto-provisioning capability (`Vpn.auto_client`). -/
def autoClientDemo : VpnRec → Bool → JsonVal :=
  fun _ ac => JsonVal.obj [("openvpn", JsonVal.arr []), ("auto_cert", JsonVal.bool ac)]

/-- Demo generic template of organization `org-a` with a non-empty config. -/
def tplBase : TemplateRec :=
  { name := "Base"
    organization := some "org-a"
    type := TemplateType.generic
    backend := "netjsonconfig.OpenWrt"
    config := JsonVal.obj [("interfaces", JsonVal.arr [])]
    default_values := JsonVal.obj []
    vpn := none
    auto_cert := false
    default := false
    tags := [] }

/-- Demo generic template that still carries a vpn reference and auto_cert. -/
def tplGenWithVpn : TemplateRec :=
  { tplBase with name := "GenVpn", vpn := some vpnDemo, auto_cert := true }

/-- Demo vpn-typed template with no vpn reference and an empty config. -/
def tplVpnNoRef : TemplateRec :=
  { tplBase with name := "VpnNoRef", type := TemplateType.vpn, vpn := none,
                 config := JsonVal.obj [] }

/-- Demo vpn-typed template eligible for auto-provisioning. -/
def tplVpnAuto : TemplateRec :=
  { tplBase with name := "VpnAuto", type := TemplateType.vpn, vpn := some vpnDemo,
                 auto_cert := true, config := JsonVal.obj [] }

/-- The normalized outcome of cleaning `tplGenWithVpn`. -/
def cleanGenDemo : CleanOutcome :=
  ⟨{ tplGenWithVpn with vpn := none, auto_cert := false }, false⟩

/-- The outcome of cleaning `tplVpnAuto`: config filled by the provisioner. -/
def cleanVpnDemo : CleanOutcome :=
  ⟨{ tplVpnAuto with config := autoClientDemo vpnDemo true }, true⟩

/-- Demo dependent configs: one already modified, one applied. -/
def depsDemo : List RelatedConfig :=
  [⟨1, Status.modified⟩, ⟨2, Status.applied⟩]

/-- Demo templates of foreign organizations. -/
def tplOther : TemplateRec :=
  { tplBase with name := "Other", organization := some "org-b" }

def tplAnother : TemplateRec :=
  { tplBase with name := "Another", organization := some "org-c" }

/-- Demo shared template (null organization). -/
def tplShared : TemplateRec :=
  { tplBase with name := "Shared", organization := none }

/-- Demo proposed template set mixing own, foreign and shared organizations. -/
def proposedDemo : List TemplateRec := [tplBase, tplOther, tplShared, tplAnother]

/-- Demo corpus of existing template names for the clone namer. -/
def cloneCorpusDemo : List String := ["Base", "Base (Clone)", "Base (Clone 2)"]

theorem dictLookup_nil (k : String) : dictLookup [] k = none := rfl

theorem dictLookup_cons (p : String × JsonVal) (d : Entries) (k : String) :
    dictLookup (p :: d) k = if p.1 = k then some p.2 else dictLookup d k := by
  by_cases h : p.1 = k
  · simp [dictLookup, List.find?_cons_of_pos, h]
  · simp [dictLookup, List.find?_cons_of_neg, h]

theorem dictLookup_append (d1 d2 : Entries) (k : String) :
    dictLookup (d1 ++ d2) k
      = (dictLookup d1 k).orElse (fun _ => dictLookup d2 k) := by
  simp only [dictLookup, List.find?_append]
  cases List.find? (fun p => p.1 == k) d1 <;> simp

theorem dictUpdate_nil (d : Entries) : dictUpdate d [] = d := by
  simp [dictUpdate, dictLookup]

theorem dictLookup_filter_congr (d : Entries) (q q' : String × JsonVal → Bool)
    (k : String) (h : ∀ p, p.1 = k → q p = q' p) :
    dictLookup (d.filter q) k = dictLookup (d.filter q') k := by
  induction d with
  | nil => rfl
  | cons a rest ih =>
      by_cases ha : a.1 = k
      · rw [List.filter_cons, List.filter_cons, h a ha]
        cases q' a <;> simp [dictLookup_cons, ha, ih]
      · rw [List.filter_cons, List.filter_cons]
        cases q a <;> cases q' a <;> simp [dictLookup_cons, ha, ih]

theorem dictLookup_update (old new : Entries) (k : String) :
    dictLookup (dictUpdate old new) k
      = (dictLookup new k).orElse (fun _ => dictLookup old k) := by
  induction old with
  | nil =>
      simp only [dictUpdate, List.map_nil, List.nil_append, dictLookup_nil,
        Option.isNone_none, List.filter_true]
      cases h : dictLookup new k <;> simp [List.filter_eq_self.mpr, h]
  | cons p rest ih =>
      by_cases hk : p.1 = k
      · simp only [dictUpdate, List.map_cons, List.cons_append, dictLookup_cons]
        have hfst : (match dictLookup new p.1 with
            | some v => (p.1, v)
            | none => p).1 = p.1 := by
          cases dictLookup new p.1 <;> rfl
        rw [hfst] at *
        simp only [if_pos hk]
        rw [← hk]
        cases hnew : dictLookup new p.1 <;>
          simp [dictLookup_cons, hk, ← hk, hnew]
      · have hstep : dictLookup (dictUpdate (p :: rest) new) k
            = dictLookup (dictUpdate rest new) k := by
          simp only [dictUpdate, List.map_cons, List.cons_append]
          have hfst : (match dictLookup new p.1 with
              | some v => (p.1, v)
              | none => p).1 = p.1 := by
            cases dictLookup new p.1 <;> rfl
          rw [dictLookup_cons, hfst, if_neg hk, dictLookup_append, dictLookup_append]
          have hfilter : dictLookup
              (new.filter (fun q => (dictLookup (p :: rest) q.1).isNone)) k
              = dictLookup (new.filter (fun q => (dictLookup rest q.1).isNone)) k := by
            apply dictLookup_filter_congr
            intro q hq
            rw [hq, dictLookup_cons, if_neg hk]
          rw [hfilter]
        rw [hstep, ih, dictLookup_cons, if_neg hk]

theorem dictLookup_foldl_update (ts : List TemplateRec) (a : Entries) (k : String) :
    dictLookup (ts.foldl (fun acc t => dictUpdate acc t.get_context) a) k
      = (ts.reverse.findSome? (fun t => dictLookup t.get_context k)).orElse
          (fun _ => dictLookup a k) := by
  induction ts generalizing a with
  | nil => simp
  | cons t rest ih =>
      rw [List.foldl_cons, ih, List.reverse_cons, List.findSome?_append]
      rw [dictLookup_update]
      cases rest.reverse.findSome? (fun t => dictLookup t.get_context k) <;>
        cases h : dictLookup t.get_context k <;>
          simp [List.findSome?, h]

theorem get_context_lookup (t : TemplateRec) (k : String) :
    dictLookup t.get_context k = dictLookup t.default_values.objEntries k := by
  unfold TemplateRec.get_context baseGetContext
  rw [dictUpdate_nil]
  by_cases h : t.default_values.pyFalsy
  · rw [if_pos h]
    cases hdv : t.default_values <;>
      simp_all [JsonVal.pyFalsy, JsonVal.objEntries, List.isEmpty_iff]
  · rw [if_neg h]

theorem get_context_falsy (t : TemplateRec) (h : t.default_values.pyFalsy = true) :
    t.get_context = [] := by
  unfold TemplateRec.get_context baseGetContext
  simp [h, dictUpdate_nil]

theorem changing_any_id (all : List RelatedConfig)
    (hnd : (all.map RelatedConfig.id).Nodup) (c : RelatedConfig) (hc : c ∈ all) :
    ((all.filter (fun x => x.status ≠ Status.modified)).any (fun c0 => c0.id = c.id))
      = !(c.status == Status.modified) := by
  have hinj : ∀ x ∈ all, x.id = c.id → x = c := fun x hx hid =>
    List.inj_on_of_nodup_map hnd hx hc hid
  by_cases hst : c.status = Status.modified
  · rw [hst]
    simp only [beq_self_eq_true, Bool.not_true]
    rw [List.any_eq_false]
    intro x hx
    have hmem := List.mem_filter.mp hx
    simp only [decide_eq_true_eq] at hmem ⊢
    intro hid
    exact hmem.2 ((hinj x hmem.1 hid) ▸ hst)
  · have : (c.status == Status.modified) = false := by
      simpa using hst
    rw [this]
    simp only [Bool.not_false]
    rw [List.any_eq_true]
    exact ⟨c, List.mem_filter.mpr ⟨hc, by simpa using hst⟩, by simp⟩

theorem events_flatMap (all deps : List RelatedConfig)
    (h : ∀ c ∈ deps,
      ((all.filter (fun x => x.status ≠ Status.modified)).any (fun c0 => c0.id = c.id))
        = !(c.status == Status.modified)) :
    ((deps.map (fun c => { c with status := Status.modified })).flatMap (fun c =>
        Event.contentChanged c.id ::
          (if (all.filter (fun x => x.status ≠ Status.modified)).any
                (fun c0 => c0.id = c.id)
           then [Event.statusChanged c.id] else [])))
      = deps.flatMap (fun c =>
          Event.contentChanged c.id ::
            (if c.status = Status.modified then []
             else [Event.statusChanged c.id])) := by
  induction deps with
  | nil => rfl
  | cons c rest ih =>
      simp only [List.map_cons, List.flatMap_cons]
      rw [ih (fun x hx => h x (List.mem_cons_of_mem _ hx))]
      have hc := h c (List.mem_cons_self _ _)
      by_cases hst : c.status = Status.modified <;> simp_all

theorem countP_content (deps : List RelatedConfig) :
    ((deps.flatMap (fun c =>
        Event.contentChanged c.id ::
          (if c.status = Status.modified then []
           else [Event.statusChanged c.id]))).countP isContentChanged)
      = deps.length := by
  induction deps with
  | nil => rfl
  | cons c rest ih =>
      by_cases h : c.status = Status.modified <;>
        simp [List.flatMap_cons, List.countP_append, List.countP_cons, h, ih,
          isContentChanged]

theorem filterMap_status (deps : List RelatedConfig) :
    ((deps.flatMap (fun c =>
        Event.contentChanged c.id ::
          (if c.status = Status.modified then []
           else [Event.statusChanged c.id]))).filterMap statusChangedId)
      = (deps.filter (fun c => c.status ≠ Status.modified)).map RelatedConfig.id := by
  induction deps with
  | nil => rfl
  | cons c rest ih =>
      by_cases h : c.status = Status.modified <;>
        simp [List.flatMap_cons, List.filterMap_append, List.filter_cons, h, ih,
          statusChangedId]

theorem JsonVal.beq_eq_decide (a b : JsonVal) :
    JsonVal.beq a b = decide (a = b) := by
  rw [Bool.eq_iff_iff]
  simp [JsonVal.beq_iff]

theorem renderAffecting_eq (self current : TemplateRec) :
    (renderAffectingAttrs.any (attrDiffers self current))
      = (decide (self.backend ≠ current.backend)
          || decide (self.config ≠ current.config)) := by
  simp only [renderAffectingAttrs, List.any_cons, List.any_nil, attrDiffers,
    JsonVal.beq_eq_decide, Bool.or_false]
  by_cases h1 : self.backend = current.backend <;>
    by_cases h2 : self.config = current.config <;> simp [h1, h2, bne]

theorem commaJoin_cons2 (a b : String) (t : List String) :
    commaJoin (a :: b :: t) = a ++ ", " ++ commaJoin (b :: t) := rfl

theorem foldl_comma (l : List String) (s : String) (h : l ≠ []) :
    l.foldl (fun acc n => acc ++ ", " ++ n) s = s ++ ", " ++ commaJoin l := by
  induction l generalizing s with
  | nil => exact absurd rfl h
  | cons a rest ih =>
      cases rest with
      | nil => simp [commaJoin]
      | cons b t =>
          rw [List.foldl_cons, ih (s ++ ", " ++ a) (by simp), commaJoin_cons2]
          simp [String.append_assoc]

theorem drop_two_comma (x : String) : ("" ++ ", " ++ x).drop 2 = x := by
  apply String.ext
  rw [String.data_drop]
  have h2 : (", " : String).data = [',', ' '] := rfl
  have h0 : ("" : String).data = [] := rfl
  simp [String.data_append, h2, h0]

theorem digitChar_toNat (d : Nat) (h : d < 10) : (digitChar d).toNat = 48 + d := by
  interval_cases d <;> decide

theorem natToDecAux_acc (fuel : Nat) :
    ∀ (n : Nat) (acc : List Char),
      natToDecAux fuel n acc = natToDecAux fuel n [] ++ acc := by
  induction fuel with
  | zero => intro n acc; rfl
  | succ fuel ih =>
      intro n acc
      simp only [natToDecAux]
      by_cases h : n < 10
      · simp [h]
      · simp only [if_neg h]
        rw [ih (n / 10) (digitChar (n % 10) :: acc), ih (n / 10) [digitChar (n % 10)]]
        simp

theorem decVal_natToDecAux (fuel : Nat) :
    ∀ n : Nat, n < fuel → decVal (natToDecAux fuel n []) = n := by
  induction fuel with
  | zero => intro n h; omega
  | succ fuel ih =>
      intro n h
      simp only [natToDecAux]
      by_cases h10 : n < 10
      · simp only [if_pos h10]
        simp only [decVal, List.foldl_cons, List.foldl_nil]
        rw [digitChar_toNat (n % 10) (Nat.mod_lt _ (by norm_num))]
        omega
      · simp only [if_neg h10]
        rw [natToDecAux_acc]
        have hlt : n / 10 < fuel := by omega
        simp only [decVal, List.foldl_append]
        have hval := ih (n / 10) hlt
        simp only [decVal] at hval
        rw [hval, List.foldl_cons, List.foldl_nil,
          digitChar_toNat (n % 10) (Nat.mod_lt _ (by norm_num))]
        omega

theorem decVal_natToDec (n : Nat) : decVal (natToDec n).data = n :=
  decVal_natToDecAux (n + 1) n (by omega)

theorem natToDec_inj {m n : Nat} (h : (natToDec m).data = (natToDec n).data) :
    m = n := by
  rw [← decVal_natToDec m, ← decVal_natToDec n, h]

theorem natToDec_data_ne_nil (n : Nat) : (natToDec n).data ≠ [] := by
  show natToDecAux (n + 1) n [] ≠ []
  simp only [natToDecAux]
  by_cases h : n < 10
  · simp [h]
  · simp only [if_neg h]
    rw [natToDecAux_acc]
    simp

theorem cloneCandidate_inj (base : String) :
    ∀ {i j : Nat}, cloneCandidate base i = cloneCandidate base j → i = j := by
  have llen1 : (" (Clone)" : String).data.length = 8 := rfl
  have llen2 : (" (Clone " : String).data.length = 8 := rfl
  have llen3 : ((")" : String)).data.length = 1 := rfl
  intro i j h
  match i, j with
  | 0, 0 => rfl
  | 0, j + 1 =>
      exfalso
      have hd := congrArg String.data h
      simp only [cloneCandidate, String.data_append, List.append_assoc] at hd
      have hlen := congrArg List.length hd
      simp only [List.length_append, llen1, llen2, llen3] at hlen
      have hpos : 0 < (natToDec (j + 2)).data.length :=
        List.length_pos.mpr (natToDec_data_ne_nil (j + 2))
      omega
  | i + 1, 0 =>
      exfalso
      have hd := congrArg String.data h
      simp only [cloneCandidate, String.data_append, List.append_assoc] at hd
      have hlen := congrArg List.length hd
      simp only [List.length_append, llen1, llen2, llen3] at hlen
      have hpos : 0 < (natToDec (i + 2)).data.length :=
        List.length_pos.mpr (natToDec_data_ne_nil (i + 2))
      omega
  | i + 1, j + 1 =>
      have hd := congrArg String.data h
      simp only [cloneCandidate, String.data_append, List.append_assoc] at hd
      have h1 := List.append_cancel_left hd
      have h2 := List.append_cancel_left h1
      have h3 := List.append_cancel_right h2
      have := natToDec_inj h3
      omega

theorem exists_unused_candidate (corpus : List String) (base : String) :
    ∃ i, i ≤ corpus.length ∧ cloneCandidate base i ∉ corpus := by
  by_contra hall
  push_neg at hall
  have hnd : ((List.range (corpus.length + 1)).map (cloneCandidate base)).Nodup :=
    List.Nodup.map (fun a b hab => cloneCandidate_inj base hab)
      (List.nodup_range _)
  have hsub : ∀ x ∈ (List.range (corpus.length + 1)).map (cloneCandidate base),
      x ∈ corpus := by
    intro x hx
    obtain ⟨i, hi, rfl⟩ := List.mem_map.mp hx
    exact hall i (Nat.lt_succ_iff.mp (List.mem_range.mp hi))
  have hsp := List.subperm_of_subset hnd hsub
  have hle := hsp.length_le
  simp only [List.length_map, List.length_range] at hle
  omega

theorem getCloneNameLoop_spec (corpus : List String) (base : String) :
    ∀ (fuel k : Nat), (∃ d, d < fuel ∧ cloneCandidate base (k + d) ∉ corpus) →
      ∃ m, k ≤ m ∧
        getCloneNameLoop corpus base fuel (k + 2) (cloneCandidate base k)
          = cloneCandidate base m ∧
        cloneCandidate base m ∉ corpus ∧
        ∀ j, k ≤ j → j < m → cloneCandidate base j ∈ corpus := by
  intro fuel
  induction fuel with
  | zero =>
      rintro k ⟨d, hd, _⟩
      omega
  | succ fuel ih =>
      rintro k ⟨d, hd, hfree⟩
      by_cases hmem : cloneCandidate base k ∈ corpus
      · have hcount : (corpus.count (cloneCandidate base k)) ≠ 0 := by
          simpa [Nat.pos_iff_ne_zero] using List.count_pos_iff.mpr hmem
        have hstep : getCloneNameLoop corpus base (fuel + 1) (k + 2)
              (cloneCandidate base k)
            = getCloneNameLoop corpus base fuel (k + 3) (cloneCandidate base (k + 1)) := by
          show (if (corpus.count (cloneCandidate base k)) ≠ 0 then
              getCloneNameLoop corpus base fuel (k + 2 + 1)
                (base ++ " (Clone " ++ natToDec (k + 2) ++ ")")
            else cloneCandidate base k) = _
          rw [if_pos hcount]
          rfl
        have hd' : ∃ d', d' < fuel ∧ cloneCandidate base (k + 1 + d') ∉ corpus := by
          cases d with
          | zero => exact absurd hfree (by simpa using hmem)
          | succ d' =>
              refine ⟨d', by omega, ?_⟩
              have : k + 1 + d' = k + (d' + 1) := by omega
              rw [this]
              exact hfree
        obtain ⟨m, hkm, heq, hfree', hall⟩ := ih (k + 1) hd'
        refine ⟨m, by omega, ?_, hfree', ?_⟩
        · rw [hstep]
          have : k + 1 + 2 = k + 3 := rfl
          rw [← this]
          exact heq
        · intro j hkj hjm
          rcases Nat.lt_or_ge j (k + 1) with hjk | hjk
          · have : j = k := by omega
            rw [this]
            exact hmem
          · exact hall j hjk hjm
      · have hcount : (corpus.count (cloneCandidate base k)) = 0 :=
          List.count_eq_zero.mpr hmem
        refine ⟨k, Nat.le_refl _, ?_, hmem, ?_⟩
        · simp [getCloneNameLoop, hcount]
        · intro j h1 h2
          omega

/-- C1: on a cascade run over dependent configs with distinct primary keys,
the snapshot S of configs whose status was not `modified` is taken before the
bulk update, every config ends up `modified`, a content-changed event is
emitted for every dependent config regardless of prior status, and a
status-changed event is emitted exactly for the configs in S, in order. -/
theorem cascade_spec (deps : List RelatedConfig)
    (hids : (deps.map RelatedConfig.id).Nodup) :
    (updateRelatedConfigStatus deps).1
        = deps.map (fun c => { c with status := Status.modified }) ∧
    (updateRelatedConfigStatus deps).2
        = deps.flatMap (fun c =>
            Event.contentChanged c.id ::
              (if c.status = Status.modified then []
               else [Event.statusChanged c.id])) ∧
    ((updateRelatedConfigStatus deps).2.countP isContentChanged) = deps.length ∧
    ((updateRelatedConfigStatus deps).2.filterMap statusChangedId)
        = (deps.filter (fun c => c.status ≠ Status.modified)).map RelatedConfig.id := by
  have hev : (updateRelatedConfigStatus deps).2
      = deps.flatMap (fun c =>
          Event.contentChanged c.id ::
            (if c.status = Status.modified then []
             else [Event.statusChanged c.id])) :=
    events_flatMap deps deps (fun c hc => changing_any_id deps hids c hc)
  exact ⟨rfl, hev, by rw [hev]; exact countP_content deps,
    by rw [hev]; exact filterMap_status deps⟩

/-- C1 witness: with two dependent configs, one `modified` and one `applied`,
the cascade emits two content-changed events and exactly one status-changed
event, for the config that transitioned. -/
theorem cascade_spec_witness :
    (updateRelatedConfigStatus depsDemo).2
        = [Event.contentChanged 1, Event.contentChanged 2, Event.statusChanged 2] ∧
    ((updateRelatedConfigStatus depsDemo).2.countP isContentChanged) = 2 ∧
    ((updateRelatedConfigStatus depsDemo).2.filterMap statusChangedId) = [2] := by
  obtain ⟨-, h2, h3, h4⟩ := cascade_spec depsDemo (by decide)
  exact ⟨h2.trans (by decide), h3.trans rfl, h4.trans (by decide)⟩

/-- C2: a save of an already-persisted template runs the mutation cascade if
and only if the backend identifier or the raw config body differs from the
persisted row; a change confined to name, tags, or the default-enabled flag
leaves the dependent configs untouched and emits nothing. -/
theorem save_cascade_iff (self current : TemplateRec) (deps : List RelatedConfig) :
    (templateSave false self current deps
        = if self.backend ≠ current.backend ∨ self.config ≠ current.config
          then updateRelatedConfigStatus deps
          else (deps, [])) ∧
    (∀ (n : String) (tg : List String) (d : Bool),
      templateSave false { current with name := n, tags := tg, default := d }
          current deps
        = (deps, [])) := by
  constructor
  · show (if (!false && renderAffectingAttrs.any (attrDiffers self current))
        then updateRelatedConfigStatus deps else (deps, [])) = _
    rw [renderAffecting_eq]
    by_cases h1 : self.backend = current.backend <;>
      by_cases h2 : self.config = current.config <;>
        simp [h1, h2]
  · intro n tg d
    show (if (!false && renderAffectingAttrs.any
          (attrDiffers { current with name := n, tags := tg, default := d } current))
        then updateRelatedConfigStatus deps else (deps, [])) = _
    rw [renderAffecting_eq]
    simp

/-- C2 witness: saving with only name, tags and default-enabled changed emits
nothing; saving with the backend changed runs the cascade. -/
theorem save_cascade_iff_witness :
    templateSave false
        { tplBase with name := "Base (renamed)", tags := ["lan"], default := true }
        tplBase depsDemo
      = (depsDemo, []) ∧
    templateSave false { tplBase with backend := "netjsonconfig.OpenWisp" }
        tplBase depsDemo
      = updateRelatedConfigStatus depsDemo := by
  constructor
  · exact (save_cascade_iff tplBase tplBase depsDemo).2 "Base (renamed)" ["lan"] true
  · exact ((save_cascade_iff { tplBase with backend := "netjsonconfig.OpenWisp" }
        tplBase depsDemo).1).trans (by rw [if_pos (Or.inl (by decide))])

/-- C9: when no render-affecting field differs between the template and its
persisted state, a save emits no notifications and leaves the dependent
configs unchanged, and so does a second save in succession: the cascade is
idempotent under unchanged inputs. -/
theorem save_idempotent (self current : TemplateRec) (deps : List RelatedConfig)
    (h1 : self.backend = current.backend) (h2 : self.config = current.config) :
    templateSave false self current deps = (deps, []) ∧
    templateSave false self current (templateSave false self current deps).1
      = (deps, []) := by
  have hfirst : templateSave false self current deps = (deps, []) := by
    show (if (!false && renderAffectingAttrs.any (attrDiffers self current))
        then updateRelatedConfigStatus deps else (deps, [])) = _
    rw [renderAffecting_eq]
    simp [h1, h2]
  exact ⟨hfirst, by rw [hfirst]; exact hfirst⟩

/-- C9 witness: two successive saves of a template whose only difference from
the persisted row is its name emit zero notifications each. -/
theorem save_idempotent_witness :
    templateSave false { tplBase with name := "Base v2" } tplBase depsDemo
      = (depsDemo, []) ∧
    templateSave false { tplBase with name := "Base v2" } tplBase
        (templateSave false { tplBase with name := "Base v2" } tplBase depsDemo).1
      = (depsDemo, []) :=
  save_idempotent { tplBase with name := "Base v2" } tplBase depsDemo rfl rfl

/-- C3: for every config with ordered template list `[T1..Tn]`, looking up any
key in `buildContext` yields the config's local variable when one is set, and
otherwise the value from the last (rightmost) template whose `default_values`
binds the key: local variables and later templates win key conflicts, and the
whole merge is the left-to-right overlay of the templates' `default_values`
under the local variables.  A template whose `default_values` is empty or
absent contributes no keys and causes no error: its context is empty. -/
theorem buildContext_spec (c : ConfigRec) (k : String) :
    (dictLookup (buildContext c) k
        = (dictLookup c.context k).orElse
            (fun _ => c.templates.reverse.findSome?
              (fun t => dictLookup t.default_values.objEntries k))) ∧
    (∀ t : TemplateRec, t.default_values.pyFalsy = true → t.get_context = []) := by
  constructor
  · unfold buildContext
    rw [dictLookup_update, dictLookup_foldl_update]
    have hfun : (fun t : TemplateRec => dictLookup t.get_context k)
        = (fun t : TemplateRec => dictLookup t.default_values.objEntries k) :=
      funext (fun t => get_context_lookup t k)
    rw [hfun]
    cases dictLookup c.context k <;>
      cases c.templates.reverse.findSome?
        (fun t => dictLookup t.default_values.objEntries k) <;>
        simp [dictLookup_nil]
  · exact fun t ht => get_context_falsy t ht

/-- C3 witness: with two templates both binding `a` and the config binding
`b`, the later template wins `a`, the local variable wins `b`, and a template
with empty default values contributes nothing. -/
theorem buildContext_spec_witness :
    dictLookup (buildContext
        ⟨[{ tplBase with default_values := JsonVal.obj [("a", JsonVal.num 1)] },
          { tplBase with default_values := JsonVal.obj [("a", JsonVal.num 2), ("b", JsonVal.num 3)] },
          tplBase],
         [("b", JsonVal.num 9)]⟩) "a" = some (JsonVal.num 2) ∧
    dictLookup (buildContext
        ⟨[{ tplBase with default_values := JsonVal.obj [("a", JsonVal.num 1)] },
          { tplBase with default_values := JsonVal.obj [("a", JsonVal.num 2), ("b", JsonVal.num 3)] },
          tplBase],
         [("b", JsonVal.num 9)]⟩) "b" = some (JsonVal.num 9) ∧
    tplBase.get_context = [] := by
  refine ⟨?_, ?_, ?_⟩
  · exact ((buildContext_spec _ "a").1).trans (by rfl)
  · exact ((buildContext_spec _ "b").1).trans (by rfl)
  · exact (buildContext_spec ⟨[], []⟩ "a").2 tplBase rfl

/-- C4: validating a proposed template set against a config's organization
fails exactly when some proposed template has a non-null organization
different from the config's (null-organization templates are always valid);
the error message names every invalid template, comma-joined and in order, and
a successful validation returns the proposed set unchanged. -/
theorem clean_templates_org_spec (org : Option String) (ts : List TemplateRec) :
    ((∃ e, cleanTemplatesOrg org ts = Except.error e)
        ↔ ∃ t ∈ ts, t.organization ≠ none ∧ t.organization ≠ org) ∧
    (∀ ts', cleanTemplatesOrg org ts = Except.ok ts' → ts' = ts) ∧
    (∀ msg, cleanTemplatesOrg org ts = Except.error msg →
      msg = orgMismatchMessage (commaJoin
        (((ts.filter (fun t => t.organization ≠ org)).filter
            (fun t => t.organization ≠ none)).map (fun t => t.name)))) := by
  unfold cleanTemplatesOrg
  by_cases hemp : ts.isEmpty
  · rw [if_pos hemp]
    have : ts = [] := List.isEmpty_iff.mp hemp
    subst this
    refine ⟨⟨(fun he => ?_), (fun ht => ?_)⟩, (fun ts' h => ?_), (fun msg h => ?_)⟩
    · obtain ⟨e, he⟩ := he
      cases he
    · obtain ⟨t, ht, -⟩ := ht
      cases ht
    · cases h
      rfl
    · cases h
  · rw [if_neg hemp]
    set invalids := ((ts.filter (fun t => t.organization ≠ org)).filter
        (fun t => t.organization ≠ none)).map (fun t => t.name) with hinv
    by_cases hinvemp : invalids.isEmpty
    · rw [if_neg (by simp [hinvemp])]
      have hnone : ∀ t ∈ ts, ¬(t.organization ≠ none ∧ t.organization ≠ org) := by
        intro t ht ⟨hn, ho⟩
        have : invalids = [] := List.isEmpty_iff.mp hinvemp
        rw [hinv] at this
        have hmem : t.name ∈ (((ts.filter (fun t => t.organization ≠ org)).filter
            (fun t => t.organization ≠ none)).map (fun t => t.name)) :=
          List.mem_map_of_mem _ (List.mem_filter.mpr
            ⟨List.mem_filter.mpr ⟨ht, by simpa using ho⟩, by simpa using hn⟩)
        rw [this] at hmem
        cases hmem
      refine ⟨⟨(fun he => ?_), (fun ht => ?_)⟩, (fun ts' h => ?_), (fun msg h => ?_)⟩
      · obtain ⟨e, he⟩ := he
        cases he
      · obtain ⟨t, ht, hcond⟩ := ht
        exact absurd hcond (hnone t ht)
      · cases h
        rfl
      · cases h
    · rw [if_pos ⟨by simpa using hemp, by simpa using hinvemp⟩]
      have hne : invalids ≠ [] := fun h => hinvemp (by simp [h])
      obtain ⟨t, ht⟩ : ∃ t, t ∈ (ts.filter (fun t => t.organization ≠ org)).filter
          (fun t => t.organization ≠ none) := by
        cases hl : (ts.filter (fun t => t.organization ≠ org)).filter
            (fun t => t.organization ≠ none) with
        | nil => exact absurd (by rw [hinv, hl]; rfl) hne
        | cons x l => exact ⟨x, by simp [hl]⟩
      have hmem := List.mem_filter.mp ht
      have hmem2 := List.mem_filter.mp hmem.1
      refine ⟨⟨(fun _ => ⟨t, hmem2.1, by simpa using hmem.2, by simpa using hmem2.2⟩),
        (fun _ => ⟨_, rfl⟩)⟩, (fun ts' h => by cases h), (fun msg h => ?_)⟩
      have hmsg := Except.error.inj h
      rw [← hmsg, foldl_comma invalids "" hne, drop_two_comma]

/-- C4 witness: a proposed set containing the config's own template, a shared
template and two foreign ones is rejected, naming exactly the two foreign
templates comma-joined in order; the same set with the foreign ones removed is
returned unchanged. -/
theorem clean_templates_org_spec_witness :
    (∃ e, cleanTemplatesOrg (some "org-a") proposedDemo = Except.error e) ∧
    cleanTemplatesOrg (some "org-a") proposedDemo
      = Except.error (orgMismatchMessage "Other, Another") ∧
    cleanTemplatesOrg (some "org-a") [tplBase, tplShared]
      = Except.ok [tplBase, tplShared] := by
  refine ⟨?_, ?_, ?_⟩
  · exact (clean_templates_org_spec (some "org-a") proposedDemo).1.mpr
      ⟨tplOther, by decide, by decide, by decide⟩
  · obtain ⟨e, he⟩ := (clean_templates_org_spec (some "org-a") proposedDemo).1.mpr
      ⟨tplOther, by decide, by decide, by decide⟩
    have := (clean_templates_org_spec (some "org-a") proposedDemo).2.2 e he
    rw [he, this]
    rfl
  · rfl

theorem validateDefaultValues_error (raw : JsonVal) (e : CleanError)
    (h : validateDefaultValues raw = Except.error e) :
    e = CleanError.defaultValuesNotObject := by
  unfold validateDefaultValues at h
  by_cases hp : raw.pyFalsy = true
  · simp [hp, JsonVal.isObj] at h
  · by_cases hio : raw.isObj = true
    · simp [hp, hio] at h
    · simp [hp, hio] at h
      exact h.symm

theorem clean_error_org (f : VpnRec → Bool → JsonVal) (t : TemplateRec)
    (horg : validateOrgRelation t.organization
      (t.vpn.map (fun v => v.organization)) = false) :
    clean f t = Except.error CleanError.orgMismatch := by
  simp [clean, horg]

theorem clean_error_dv (f : VpnRec → Bool → JsonVal) (t : TemplateRec)
    (horg : validateOrgRelation t.organization
      (t.vpn.map (fun v => v.organization)) = true)
    (e : CleanError) (hdv : validateDefaultValues t.default_values = Except.error e) :
    clean f t = Except.error e := by
  simp [clean, horg, hdv]

theorem clean_error_vpnRequired (f : VpnRec → Bool → JsonVal) (t : TemplateRec)
    (horg : validateOrgRelation t.organization
      (t.vpn.map (fun v => v.organization)) = true)
    (dv : JsonVal) (hdv : validateDefaultValues t.default_values = Except.ok dv)
    (htype : t.type = TemplateType.vpn) (hvpn : t.vpn = none) :
    clean f t = Except.error CleanError.vpnRequired := by
  rw [hvpn] at horg
  simp only [Option.map_none'] at horg
  simp [clean, horg, hdv, htype, hvpn]

theorem clean_ok_generic (f : VpnRec → Bool → JsonVal) (t : TemplateRec)
    (horg : validateOrgRelation t.organization
      (t.vpn.map (fun v => v.organization)) = true)
    (dv : JsonVal) (hdv : validateDefaultValues t.default_values = Except.ok dv)
    (htype : t.type ≠ TemplateType.vpn) :
    clean f t = Except.ok
      ⟨{ t with default_values := dv, vpn := none, auto_cert := false }, false⟩ := by
  simp [clean, horg, hdv, htype]

theorem clean_ok_vpn_fill (f : VpnRec → Bool → JsonVal) (t : TemplateRec)
    (horg : validateOrgRelation t.organization
      (t.vpn.map (fun v => v.organization)) = true)
    (dv : JsonVal) (hdv : validateDefaultValues t.default_values = Except.ok dv)
    (htype : t.type = TemplateType.vpn) (v : VpnRec) (hv : t.vpn = some v)
    (hcfg : t.config.pyFalsy = true) :
    clean f t = Except.ok
      ⟨{ t with default_values := dv, config := f v t.auto_cert }, true⟩ := by
  rw [hv] at horg
  simp only [Option.map_some'] at horg
  simp [clean, horg, hdv, htype, hv, hcfg]

theorem clean_ok_vpn_keep (f : VpnRec → Bool → JsonVal) (t : TemplateRec)
    (horg : validateOrgRelation t.organization
      (t.vpn.map (fun v => v.organization)) = true)
    (dv : JsonVal) (hdv : validateDefaultValues t.default_values = Except.ok dv)
    (htype : t.type = TemplateType.vpn) (v : VpnRec) (hv : t.vpn = some v)
    (hcfg : t.config.pyFalsy = false) :
    clean f t = Except.ok ⟨{ t with default_values := dv }, false⟩ := by
  rw [hv] at horg
  simp only [Option.map_some'] at horg
  simp [clean, horg, hdv, htype, hv, hcfg]

/-- C5: after type validation, a template whose type is not `vpn` has its vpn
reference nulled and its auto_cert flag cleared in the normalized result, even
if they were set before; a vpn-typed template with no vpn reference fails
validation with a ValidationError (the missing-vpn error, or the malformed
default_values error when that check fails first). -/
theorem clean_type_normalization (f : VpnRec → Bool → JsonVal) (t : TemplateRec) :
    (t.type ≠ TemplateType.vpn → ∀ r, clean f t = Except.ok r →
        r.t.vpn = none ∧ r.t.auto_cert = false) ∧
    (t.type = TemplateType.vpn → t.vpn = none →
        clean f t = Except.error CleanError.defaultValuesNotObject ∨
        clean f t = Except.error CleanError.vpnRequired) := by
  constructor
  · intro htype r hok
    cases horg : validateOrgRelation t.organization
        (t.vpn.map (fun v => v.organization)) with
    | false =>
        rw [clean_error_org f t horg] at hok
        cases hok
    | true =>
        cases hdv : validateDefaultValues t.default_values with
        | error e =>
            rw [clean_error_dv f t horg e hdv] at hok
            cases hok
        | ok dv =>
            rw [clean_ok_generic f t horg dv hdv htype] at hok
            cases hok
            exact ⟨rfl, rfl⟩
  · intro htype hvpn
    cases horg : validateOrgRelation t.organization
        (t.vpn.map (fun v => v.organization)) with
    | false =>
        rw [hvpn] at horg
        simp [validateOrgRelation] at horg
    | true =>
        cases hdv : validateDefaultValues t.default_values with
        | error e =>
            left
            have he := validateDefaultValues_error _ e hdv
            subst he
            exact clean_error_dv f t horg _ hdv
        | ok dv =>
            right
            exact clean_error_vpnRequired f t horg dv hdv htype hvpn

/-- C5 witness: cleaning a generic template carrying a vpn reference and
auto_cert clears both; cleaning a vpn-typed template without vpn reference
errors. -/
theorem clean_type_normalization_witness :
    cleanGenDemo.t.vpn = none ∧ cleanGenDemo.t.auto_cert = false ∧
    (clean autoClientDemo tplVpnNoRef = Except.error CleanError.defaultValuesNotObject ∨
     clean autoClientDemo tplVpnNoRef = Except.error CleanError.vpnRequired) := by
  obtain ⟨ha, hb⟩ := (clean_type_normalization autoClientDemo tplGenWithVpn).1
      (by decide) cleanGenDemo (by rfl)
  exact ⟨ha, hb, (clean_type_normalization autoClientDemo tplVpnNoRef).2 rfl rfl⟩

/-- C6 counterexample: the claim says every non-object input fails, but the
falsy non-object `""` is coerced to `{}` before the isinstance check and is
accepted. -/
theorem validateDefaultValues_cex :
    validateDefaultValues (JsonVal.str "") = Except.ok (JsonVal.obj []) ∧
    (JsonVal.str "").isObj = false := ⟨rfl, rfl⟩

/-- C6 (amended): validateDefaultValues coerces a null/absent — in fact any
Python-falsy — default_values to the empty mapping, accepts any JSON-object
mapping unchanged, and fails with a ValidationError exactly on truthy
non-object input (e.g. the string "x"). -/
theorem validateDefaultValues_spec :
    (validateDefaultValues JsonVal.null = Except.ok (JsonVal.obj [])) ∧
    (∀ entries : List (String × JsonVal),
      validateDefaultValues (JsonVal.obj entries) = Except.ok (JsonVal.obj entries)) ∧
    (∀ raw : JsonVal, raw.pyFalsy = true →
      validateDefaultValues raw = Except.ok (JsonVal.obj [])) ∧
    (∀ raw : JsonVal, raw.pyFalsy = false → raw.isObj = false →
      validateDefaultValues raw = Except.error CleanError.defaultValuesNotObject) := by
  refine ⟨rfl, (fun entries => ?_), (fun raw h => ?_), (fun raw h1 h2 => ?_)⟩
  · cases h : entries.isEmpty with
    | true =>
        have he : entries = [] := List.isEmpty_iff.mp h
        subst he
        rfl
    | false => simp [validateDefaultValues, JsonVal.pyFalsy, JsonVal.isObj, h]
  · simp [validateDefaultValues, JsonVal.isObj, h]
  · simp [validateDefaultValues, h1, h2]

/-- C6 witness: the truthy non-object "x" is rejected and null is coerced to
the empty mapping. -/
theorem validateDefaultValues_spec_witness :
    validateDefaultValues (JsonVal.str "x")
        = Except.error CleanError.defaultValuesNotObject ∧
    validateDefaultValues JsonVal.null = Except.ok (JsonVal.obj []) :=
  ⟨validateDefaultValues_spec.2.2.2 (JsonVal.str "x") rfl rfl,
   validateDefaultValues_spec.1⟩

/-- C7 counterexample: the claim's "invoked iff type='vpn' and config empty"
fails on a vpn-typed template with empty config and no vpn reference:
validation raises before the auto-provisioning line, so nothing is invoked
although the claimed condition holds. -/
theorem auto_client_invocation_cex :
    tplVpnNoRef.type = TemplateType.vpn ∧ tplVpnNoRef.config.pyFalsy = true ∧
    cleanInvokes autoClientDemo tplVpnNoRef = false := ⟨rfl, rfl, rfl⟩

/-- C7 (amended): during validation the VPN auto-provisioner is invoked iff
the template's type is 'vpn', its config body is empty, and no earlier
validation error is raised; a non-empty explicit config body is never
overwritten, and when invoked the config comes from `auto_client` on the
linked vpn with the template's auto_cert flag. -/
theorem auto_client_invocation (f : VpnRec → Bool → JsonVal) (t : TemplateRec) :
    (cleanInvokes f t = true ↔
        (t.type = TemplateType.vpn ∧ t.config.pyFalsy = true ∧
         ∃ r, clean f t = Except.ok r)) ∧
    (∀ r, clean f t = Except.ok r → t.config.pyFalsy = false →
        r.t.config = t.config) ∧
    (∀ r, clean f t = Except.ok r → r.autoClientInvoked = true →
        ∃ v, t.vpn = some v ∧ r.t.config = f v t.auto_cert) := by
  cases horg : validateOrgRelation t.organization
      (t.vpn.map (fun v => v.organization)) with
  | false =>
      have hclean := clean_error_org f t horg
      refine ⟨⟨(fun hi => ?_), (fun hcond => ?_)⟩, (fun r hr _ => ?_), (fun r hr _ => ?_)⟩
      · simp [cleanInvokes, hclean] at hi
      · obtain ⟨-, -, r, hr⟩ := hcond
        rw [hclean] at hr
        cases hr
      · rw [hclean] at hr
        cases hr
      · rw [hclean] at hr
        cases hr
  | true =>
      cases hdv : validateDefaultValues t.default_values with
      | error e =>
          have hclean := clean_error_dv f t horg e hdv
          refine ⟨⟨(fun hi => ?_), (fun hcond => ?_)⟩, (fun r hr _ => ?_), (fun r hr _ => ?_)⟩
          · simp [cleanInvokes, hclean] at hi
          · obtain ⟨-, -, r, hr⟩ := hcond
            rw [hclean] at hr
            cases hr
          · rw [hclean] at hr
            cases hr
          · rw [hclean] at hr
            cases hr
      | ok dv =>
          by_cases htype : t.type = TemplateType.vpn
          · cases hv : t.vpn with
            | none =>
                have hclean := clean_error_vpnRequired f t horg dv hdv htype hv
                refine ⟨⟨(fun hi => ?_), (fun hcond => ?_)⟩,
                  (fun r hr _ => ?_), (fun r hr _ => ?_)⟩
                · simp [cleanInvokes, hclean] at hi
                · obtain ⟨-, -, r, hr⟩ := hcond
                  rw [hclean] at hr
                  cases hr
                · rw [hclean] at hr
                  cases hr
                · rw [hclean] at hr
                  cases hr
            | some v =>
                cases hcfg : t.config.pyFalsy with
                | true =>
                    have hclean := clean_ok_vpn_fill f t horg dv hdv htype v hv hcfg
                    refine ⟨⟨(fun _ => ⟨htype, rfl, _, hclean⟩), (fun _ => ?_)⟩,
                      (fun r hr hcf => ?_), (fun r hr hinv => ?_)⟩
                    · simp [cleanInvokes, hclean]
                    · cases hcf
                    · rw [hclean] at hr
                      cases hr
                      exact ⟨v, rfl, rfl⟩
                | false =>
                    have hclean := clean_ok_vpn_keep f t horg dv hdv htype v hv hcfg
                    refine ⟨⟨(fun hi => ?_), (fun hcond => ?_)⟩,
                      (fun r hr _ => ?_), (fun r hr hinv => ?_)⟩
                    · simp [cleanInvokes, hclean] at hi
                    · obtain ⟨-, hcf, -⟩ := hcond
                      cases hcf
                    · rw [hclean] at hr
                      cases hr
                      rfl
                    · rw [hclean] at hr
                      cases hr
                      cases hinv
          · have hclean := clean_ok_generic f t horg dv hdv htype
            refine ⟨⟨(fun hi => ?_), (fun hcond => ?_)⟩,
              (fun r hr _ => ?_), (fun r hr hinv => ?_)⟩
            · simp [cleanInvokes, hclean] at hi
            · obtain ⟨ht, -, -⟩ := hcond
              exact absurd ht htype
            · rw [hclean] at hr
              cases hr
              rfl
            · rw [hclean] at hr
              cases hr
              cases hinv

/-- C7 witness: a vpn-typed template with empty config is auto-provisioned
from its vpn with the auto_cert flag; a generic template with non-empty
config keeps it unchanged. -/
theorem auto_client_invocation_witness :
    cleanInvokes autoClientDemo tplVpnAuto = true ∧
    cleanVpnDemo.t.config = autoClientDemo vpnDemo true ∧
    cleanGenDemo.t.config = tplGenWithVpn.config := by
  refine ⟨?_, ?_, ?_⟩
  · exact (auto_client_invocation autoClientDemo tplVpnAuto).1.mpr
      ⟨rfl, rfl, cleanVpnDemo, by rfl⟩
  · obtain ⟨v, hv, hcfg⟩ := (auto_client_invocation autoClientDemo tplVpnAuto).2.2
      cleanVpnDemo (by rfl) rfl
    have : v = vpnDemo := by
      have := hv.symm.trans (rfl : tplVpnAuto.vpn = some vpnDemo)
      exact Option.some.inj this
    rw [← this]
    exact hcfg
  · exact (auto_client_invocation autoClientDemo tplGenWithVpn).2.1
      cleanGenDemo (by rfl) rfl

/-- C10: `clean` can never take the null-dereference branch: every run either
succeeds or raises one of the three ValidationErrors, because the
auto-provisioning branch is guarded by type == 'vpn' and the earlier check in
the same run rejects any vpn-typed template with a null vpn reference. -/
theorem clean_never_null_deref (f : VpnRec → Bool → JsonVal) (t : TemplateRec) :
    (∃ r, clean f t = Except.ok r) ∨
    clean f t = Except.error CleanError.orgMismatch ∨
    clean f t = Except.error CleanError.defaultValuesNotObject ∨
    clean f t = Except.error CleanError.vpnRequired := by
  cases horg : validateOrgRelation t.organization
      (t.vpn.map (fun v => v.organization)) with
  | false => exact Or.inr (Or.inl (clean_error_org f t horg))
  | true =>
      cases hdv : validateDefaultValues t.default_values with
      | error e =>
          have he := validateDefaultValues_error _ e hdv
          subst he
          exact Or.inr (Or.inr (Or.inl (clean_error_dv f t horg _ hdv)))
      | ok dv =>
          by_cases htype : t.type = TemplateType.vpn
          · cases hv : t.vpn with
            | none =>
                exact Or.inr (Or.inr (Or.inr
                  (clean_error_vpnRequired f t horg dv hdv htype hv)))
            | some v =>
                cases hcfg : t.config.pyFalsy with
                | true => exact Or.inl ⟨_, clean_ok_vpn_fill f t horg dv hdv htype v hv hcfg⟩
                | false => exact Or.inl ⟨_, clean_ok_vpn_keep f t horg dv hdv htype v hv hcfg⟩
          · exact Or.inl ⟨_, clean_ok_generic f t horg dv hdv htype⟩

/-- C8: the clone namer probes the candidate sequence `"{name} (Clone)"`,
`"{name} (Clone 2)"`, `"{name} (Clone 3)"`, ... against the full corpus of
existing template names and returns the first unused candidate; an unused
candidate exists among the first `corpus.length + 1` probes, so the bounded
loop (fuel `corpus.length + 1`) already returns a collision-free name. -/
theorem getCloneName_spec (corpus : List String) (base : String) :
    ∃ m, m ≤ corpus.length ∧
      getCloneName corpus base = cloneCandidate base m ∧
      cloneCandidate base m ∉ corpus ∧
      ∀ j, j < m → cloneCandidate base j ∈ corpus := by
  obtain ⟨i, hi, hfree⟩ := exists_unused_candidate corpus base
  obtain ⟨m, h0m, heq, hfree', hall⟩ :=
    getCloneNameLoop_spec corpus base (corpus.length + 1) 0
      ⟨i, by omega, by simpa using hfree⟩
  have hmi : m ≤ i := by
    by_contra hmi
    exact hfree (hall i (by omega) (by omega))
  exact ⟨m, by omega, heq, hfree', fun j hj => hall j (by omega) hj⟩

/-- C8 witness: with existing names Base, Base (Clone) and Base (Clone 2),
the clone namer returns Base (Clone 3), a name unused in the corpus. -/
theorem getCloneName_spec_witness :
    getCloneName cloneCorpusDemo "Base" = "Base (Clone 3)" ∧
    "Base (Clone 3)" ∉ cloneCorpusDemo := by
  have hval : getCloneName cloneCorpusDemo "Base" = "Base (Clone 3)" := by decide
  refine ⟨hval, ?_⟩
  obtain ⟨m, -, heq, hfree, -⟩ := getCloneName_spec cloneCorpusDemo "Base"
  rwa [heq.symm.trans hval] at hfree

end Owisp
